import Mathlib

/-!
Verification development for the `@fizzwiz/awaitility` chainable-handler
library.  The definitions below are a shallow embedding of the JavaScript
sources:

* `src/main/util/Path.js`  — the nested-property resolver (`Path.keys`,
  `Path.get`, `Path.set`);
* `src/main/core/Handler.js` — the `Handler` class (path stack, `with` /
  `without` navigation, `check` / `asyncCheck`, `get` / `set` / `asyncSet`,
  `exec` / `asyncExec`, `enrich`, `fail`);
* `src/main/handler/HttpRequestHandler.js` — the HTTP specialization
  (`checkMethod`, `defaultOnError`);
* `Res.js` — the response writer (`Res.json`, `Res.redirect`).

JavaScript objects are modelled as a heap of association lists addressed by
natural numbers; `JSVal` is the value universe (reference values carry a heap
address, so value equality of `.ref` values is exactly JavaScript reference
equality `===`).  The model covers own data properties of plain objects
(prototype-chain lookups and exotic objects are outside the scope of the
properties verified here).  Exceptions are modelled with `Except String`
carrying the error message; `async` methods resolve sequentially (the library
runs single-threaded and each chained step fully resolves before the next
one starts), so their bodies coincide with the synchronous ones.
-/

/-- Values of the JavaScript model: `undefined`, `null`, booleans, numbers
(integers suffice for the verified properties), strings, and object
references carrying a heap address. -/
inductive JSVal where
  | undef
  | null
  | bool (b : Bool)
  | num (n : Int)
  | str (s : String)
  | ref (a : Nat)
deriving DecidableEq, Repr

/-- An object is a finite map from property names to values, kept as an
association list (at most one binding per key, insertion order preserved). -/
abbrev JSObj := List (String × JSVal)

/-- A heap is a list of objects; the address of an object is its index. -/
abbrev Heap := List JSObj

/-- Lookup of an own property; absent properties read as `undefined`,
matching `current[key]` on a plain object. -/
def objGet (o : JSObj) (k : String) : JSVal :=
  match o.find? (fun p => p.1 == k) with
  | some p => p.2
  | none => JSVal.undef

/-- Test for an own property, matching the `key in current` operator on a
plain object. -/
def hasKey (o : JSObj) (k : String) : Bool :=
  o.any (fun p => p.1 == k)

/-- Property assignment `o[k] = v`: replaces an existing binding in place or
appends a new one. -/
def objSet (o : JSObj) (k : String) (v : JSVal) : JSObj :=
  if hasKey o k then o.map (fun p => if p.1 == k then (k, v) else p)
  else o ++ [(k, v)]

/-- Dereference a heap address (addresses produced by the model are always
in range; out-of-range addresses read as the empty object). -/
def heapGet (h : Heap) (a : Nat) : JSObj :=
  h.getD a []

/-- Replace the object stored at an address. -/
def heapSet (h : Heap) (a : Nat) (o : JSObj) : Heap :=
  h.set a o

/-- Splits a character list at every `'.'`, keeping empty segments, exactly
like `"…".split(".")`; `acc` holds the (reversed) current segment. -/
def splitDotsAux : List Char → List Char → List (List Char)
  | acc, [] => [acc.reverse]
  | acc, c :: cs =>
    if c = '.' then acc.reverse :: splitDotsAux [] cs
    else splitDotsAux (c :: acc) cs

/-- Embeds `Path.keys` (src/main/util/Path.js) on string input:
`input.split(".").filter(Boolean)` — split on dots, dropping the empty
segments (the empty string is falsy). -/
def pathKeys (s : String) : List String :=
  ((splitDotsAux [] s.data).map (fun cs => String.mk cs)).filter (fun k => k ≠ "")

/-- Embeds `Path.get(obj, keys)` (src/main/util/Path.js, lines 156-168).
Walks `keys` from `obj`; returns `undefined` as soon as the current value is
`null`/`undefined` or lacks the key; the `key in current` test throws a
`TypeError` when the current value is a primitive.  Note the JavaScript
function takes exactly two parameters: it has no `creating` parameter and
performs no write whatsoever (its Lean type accordingly has no output heap). -/
def pathGet (heap : Heap) : JSVal → List String → Except String JSVal
  | current, [] => Except.ok current
  | current, k :: ks =>
    match current with
    | JSVal.undef => Except.ok JSVal.undef
    | JSVal.null => Except.ok JSVal.undef
    | JSVal.ref a =>
      let o := heapGet heap a
      if hasKey o k then pathGet heap (objGet o k) ks else Except.ok JSVal.undef
    | _ => Except.error "TypeError: cannot use in operator on a primitive"

/-- Call site adapter: `Handler.js` invokes `Paths.get(ctx, keys, creating)`
with three arguments, but `Path.get` is binary, so JavaScript drops the
extra `creating` argument.  This definition records that call shape. -/
def pathGetWithCreating (heap : Heap) (v : JSVal) (keys : List String)
    (_creating : Bool) : Except String JSVal :=
  pathGet heap v keys

/-- Embeds the property assignment `target[k] = v` in strict-mode code:
succeeds on an object reference, throws a `TypeError` when the target is
`undefined`/`null` or a primitive. -/
def jsSetProp (heap : Heap) (target : JSVal) (k : String) (v : JSVal) :
    Heap × Except String Unit :=
  match target with
  | JSVal.ref a => (heapSet heap a (objSet (heapGet heap a) k v), Except.ok ())
  | JSVal.undef => (heap, Except.error "TypeError: cannot set properties of undefined")
  | JSVal.null => (heap, Except.error "TypeError: cannot set properties of null")
  | _ => (heap, Except.error "TypeError: cannot create property on a primitive")

/-- Embeds the loop of `Path.set` (src/main/util/Path.js, lines 180-200):
walks every key but the last (creating `{}` objects when `creating` is true,
throwing `nonexistent path: …` when false), then assigns the last key.
`done` accumulates the keys already consumed, for the error message. -/
def pathSetLoop (heap : Heap) (current : JSVal) (v : JSVal) (creating : Bool)
    (done : List String) : List String → Heap × Except String Unit
  | [] => (heap, Except.error "Invalid path: empty keys")
  | [k] => jsSetProp heap current k v
  | k :: k' :: ks =>
    match current with
    | JSVal.ref a =>
      let o := heapGet heap a
      if hasKey o k then
        pathSetLoop heap (objGet o k) v creating (done ++ [k]) (k' :: ks)
      else if creating then
        let addr := heap.length
        let heap' := heapSet (heap ++ [[]]) a (objSet o k (JSVal.ref addr))
        pathSetLoop heap' (JSVal.ref addr) v creating (done ++ [k]) (k' :: ks)
      else
        (heap, Except.error ("nonexistent path: " ++ String.intercalate "." (done ++ [k])))
    | _ => (heap, Except.error "TypeError: cannot use in operator on a primitive")

/-- Embeds `Path.set(obj, keys, value, creating=false)`
(src/main/util/Path.js, lines 180-200).  Empty key lists throw
`Invalid path: empty keys`. -/
def pathSet (heap : Heap) (root : JSVal) (keys : List String) (v : JSVal)
    (creating : Bool) : Heap × Except String Unit :=
  pathSetLoop heap root v creating [] keys

/-- Error objects handed to the Handler API, e.g. `{ message: 'wrong-name', code: 405 }`.
The model tracks the two properties the library reads (`message`, `code`);
`none` models an absent property.  (A property explicitly set to `undefined`
is identified with an absent one.) -/
structure ErrObj where
  message : Option String
  code : Option Int
deriving DecidableEq, Repr

/-- Cause recorded on an enriched envelope: either the supplied error object
itself (re-thrown by `if (!ok) throw error` and caught), or a lower-level
exception carrying a message. -/
inductive Cause where
  | errObj (e : Option ErrObj)
  | thrown (s : String)
deriving DecidableEq, Repr

/-- The enriched error envelope built by `Handler.enrich`
(src/main/core/Handler.js, lines 228-233).  `enrich` also attaches
`emitter = this`, a back-reference to the handler, which no verified
property inspects and which the model therefore omits. -/
structure Envelope where
  message : String
  code : Option Int
  cause : Option Cause
deriving DecidableEq, Repr

/-- Observable effects of one chained call: the envelopes passed to the
`onError` callback and the `(eventName, envelope)` pairs emitted on the
handler (in order). -/
structure Outcome where
  onErrorCalls : List Envelope
  events : List (String × Envelope)
deriving DecidableEq, Repr

/-- Outcome of a step that neither calls `onError` nor emits anything. -/
def silentOutcome : Outcome := { onErrorCalls := [], events := [] }

/-- Embeds the mutable state of a `Handler` instance
(src/main/core/Handler.js): the path stack (the immutable `Path` of
`@fizzwiz/fluent`, modelled per spec §3 as a root-first list whose last
element is the current context), the `ok` flag, and the default error.
Whether a `defaultOnError` callback is installed is passed to each
operation as an `onErrorProvided` flag. -/
structure Handler where
  path : List JSVal
  ok : Bool
  defaultError : Option ErrObj
deriving DecidableEq, Repr

/-- Embeds the `Handler` constructor: `this.path = Path.of(ctx); this.ok = true;
this.defaultError = error`. -/
def Handler.ofCtx (ctx : JSVal) (error : Option ErrObj) : Handler :=
  { path := [ctx], ok := true, defaultError := error }

/-- Embeds the `ctx` getter: `this.path.last` — the top of the path stack. -/
def Handler.ctx (st : Handler) : JSVal :=
  st.path.getLastD JSVal.undef

/-- JavaScript `a || d` for an optional string `a`: the default is used when
`a` is absent or empty (the empty string is falsy). -/
def jsOrStr (a : Option String) (d : String) : String :=
  match a with
  | some s => if s = "" then d else s
  | none => d

/-- The handler's default failure name
`this.defaultError?.message || 'handler-fail'`, used both by `enrich` and as
the first event key in `fail`. -/
def Handler.defaultName (st : Handler) : String :=
  jsOrStr (st.defaultError.bind (fun e => e.message)) "handler-fail"

/-- The local message part `err?.message || ''` used by `enrich`. -/
def localMsg (err : Option ErrObj) : String :=
  match err.bind (fun e => e.message) with
  | some s => s
  | none => ""

/-- Last character of a string, if any. -/
def lastChar (s : String) : Option Char :=
  s.data.getLast?

/-- Embeds `.replace(/:$/, '')`: removes a single trailing colon. -/
def trimTrailingColon (s : String) : String :=
  match s.data.getLast? with
  | some c => if c = ':' then String.mk s.data.dropLast else s
  | none => s

/-- Object.assign code selection in `enrich`: the local error's `code` when
it has one, otherwise the default error's. -/
def assignCode (dflt err : Option ErrObj) : Option Int :=
  match err.bind (fun e => e.code) with
  | some c => some c
  | none => dflt.bind (fun e => e.code)

/-- Embeds `Handler.enrich(err, causeErr)` (src/main/core/Handler.js, lines
228-233): merges `defaultError` and `err`, sets
`message = (defaultError?.message || 'handler-fail') + ':' + (err?.message || '')`
with a trailing colon trimmed, and records the cause. -/
def Handler.enrich (st : Handler) (err : Option ErrObj) (causeErr : Option Cause) :
    Envelope :=
  { message := trimTrailingColon (st.defaultName ++ ":" ++ localMsg err),
    code := assignCode st.defaultError err,
    cause := causeErr }

/-- Embeds `Handler.fail(err, cause, onError)` (src/main/core/Handler.js,
lines 242-249): sets `ok = false`, builds the enriched envelope, invokes
`onError` with it when one is installed, then emits it twice — once under
the default failure name and once under the enriched message. -/
def Handler.fail (st : Handler) (err : Option ErrObj) (cause : Option Cause)
    (onErrorProvided : Bool) : Handler × Outcome :=
  let enriched := st.enrich err cause
  ({ st with ok := false },
   { onErrorCalls := if onErrorProvided then [enriched] else [],
     events := [(st.defaultName, enriched), (enriched.message, enriched)] })

/-- Embeds `Handler.with(stringOrArray, error, onError, creating)`
(src/main/core/Handler.js, lines 57-70), string-path form; renamed because
`with` is reserved in Lean.  Note the method has no `if (!this.ok)` guard:
it always resolves the path.  A `TypeError` thrown by `Paths.get` is not
caught and propagates to the caller (`Except.error`).  On `next === ctx` or
`next === undefined` it fails with the supplied or default error; otherwise
it pushes `next` (`this.path = this.path.add(next)`). -/
def Handler.withPath (st : Handler) (heap : Heap) (pathStr : String)
    (error : Option ErrObj) (onErrorProvided : Bool) (creating : Bool) :
    Except String (Handler × Outcome) :=
  match pathGetWithCreating heap st.ctx (pathKeys pathStr) creating with
  | Except.error s => Except.error s
  | Except.ok next =>
    if next = st.ctx ∨ next = JSVal.undef then
      Except.ok (st.fail
        (some (error.getD { message := some ("Path not found: " ++ pathStr), code := none }))
        none onErrorProvided)
    else
      Except.ok ({ st with path := st.path ++ [next] }, silentOutcome)

/-- One pass of the `without` loop: `if (this.path.length > 1) this.path = this.path.parent`,
iterated `n` times (the fluent `parent` drops the last element, per spec §3). -/
def withoutLoop (p : List JSVal) : Nat → List JSVal
  | 0 => p
  | n + 1 => withoutLoop (if p.length > 1 then p.dropLast else p) n

/-- Embeds `Handler.without(nsteps)` (src/main/core/Handler.js, lines 77-82). -/
def Handler.without (st : Handler) (nsteps : Nat) : Handler :=
  { st with path := withoutLoop st.path nsteps }

/-- A predicate as passed to `check`: it receives the heap and the current
context, may mutate the heap, and either returns a boolean or throws.
(The JavaScript predicate also receives the handler itself as a second
argument; no verified property involves a predicate that uses it.) -/
abbrev Pred := Heap → JSVal → Heap × Except String Bool

/-- Embeds `Handler.check(predicate, error, onError)`
(src/main/core/Handler.js, lines 91-100): no-op when `ok` is already false;
otherwise runs the predicate, failing via `fail(error, err, onError)` where
`err` is the thrown value — the supplied `error` object itself when the
predicate returned a falsy value (`if (!ok) throw error`), or the
predicate's own exception.  Every exception is caught: the call itself never
throws, which the total return type reflects. -/
def Handler.check (st : Handler) (heap : Heap) (pred : Pred)
    (error : Option ErrObj) (onErrorProvided : Bool) : Handler × Heap × Outcome :=
  if st.ok then
    let r := pred heap st.ctx
    match r.2 with
    | Except.ok true => (st, r.1, silentOutcome)
    | Except.ok false =>
      let f := st.fail error (some (Cause.errObj error)) onErrorProvided
      (f.1, r.1, f.2)
    | Except.error s =>
      let f := st.fail error (some (Cause.thrown s)) onErrorProvided
      (f.1, r.1, f.2)
  else (st, heap, silentOutcome)

/-- Embeds `Handler.asyncCheck(predicate, error, onError)`
(src/main/core/Handler.js, lines 109-118).  The body is that of `check`
with the predicate awaited; in the sequential execution model the awaited
promise resolves (or rejects) before the call returns, so the embedding
coincides with the synchronous one. -/
def Handler.asyncCheck (st : Handler) (heap : Heap) (pred : Pred)
    (error : Option ErrObj) (onErrorProvided : Bool) : Handler × Heap × Outcome :=
  if st.ok then
    let r := pred heap st.ctx
    match r.2 with
    | Except.ok true => (st, r.1, silentOutcome)
    | Except.ok false =>
      let f := st.fail error (some (Cause.errObj error)) onErrorProvided
      (f.1, r.1, f.2)
    | Except.error s =>
      let f := st.fail error (some (Cause.thrown s)) onErrorProvided
      (f.1, r.1, f.2)
  else (st, heap, silentOutcome)

/-- Embeds `Handler.get(path, creating)` (src/main/core/Handler.js, lines
126-128): `path ? Paths.get(this.ctx, Paths.keys(path), creating) : this.ctx`.
`none` models calling without a path argument and the empty string is falsy;
both return the current context. -/
def Handler.get (st : Handler) (heap : Heap) (pathStr : Option String)
    (creating : Bool) : Except String JSVal :=
  match pathStr with
  | none => Except.ok st.ctx
  | some s =>
    if s = "" then Except.ok st.ctx
    else pathGetWithCreating heap st.ctx (pathKeys s) creating

/-- The `value` argument of `set`/`asyncSet`: either a plain value or a
producer function `(trg, handler) => value` that may mutate the heap and may
throw; the handler argument is unused by every verified property and the
model omits it. -/
inductive SetVal where
  | val (v : JSVal)
  | fn (f : Heap → JSVal → Heap × Except String JSVal)

/-- Embeds `Handler.set(path, value, error, onError, creating)`
(src/main/core/Handler.js, lines 139-157).  No-op when `ok` is false.
Otherwise: `trg` is `Paths.get(this.ctx, keys.slice(0,-1), true)` when
`creating` and more than one key (the third argument being dropped by the
binary `Path.get`), else the current context; the value is the producer's
result when `value` is a function; the assignment is `trg[lastKey] = val`
in the creating multi-key case and `Paths.set(this.ctx, keys, val)` —
called without a `creating` argument, hence with `creating = false` —
otherwise.  Any exception is routed through `fail(error, err, onError)`. -/
def Handler.set (st : Handler) (heap : Heap) (pathStr : String) (value : SetVal)
    (error : Option ErrObj) (onErrorProvided : Bool) (creating : Bool) :
    Handler × Heap × Outcome :=
  if st.ok then
    let keys := pathKeys pathStr
    match (if creating ∧ keys.length > 1
           then pathGetWithCreating heap st.ctx keys.dropLast true
           else Except.ok st.ctx) with
    | Except.error s =>
      let f := st.fail error (some (Cause.thrown s)) onErrorProvided
      (f.1, heap, f.2)
    | Except.ok trg =>
      let rv := (match value with
                 | SetVal.val v => (heap, Except.ok v)
                 | SetVal.fn f => f heap trg)
      match rv.2 with
      | Except.error s =>
        let f := st.fail error (some (Cause.thrown s)) onErrorProvided
        (f.1, rv.1, f.2)
      | Except.ok val =>
        let w := (if keys.length > 1 ∧ creating
                  then jsSetProp rv.1 trg (keys.getLastD "") val
                  else pathSet rv.1 st.ctx keys val false)
        match w.2 with
        | Except.ok _ => (st, w.1, silentOutcome)
        | Except.error s =>
          let f := st.fail error (some (Cause.thrown s)) onErrorProvided
          (f.1, w.1, f.2)
  else (st, heap, silentOutcome)

/-- Embeds `Handler.asyncSet(path, value, error, onError, creating)`
(src/main/core/Handler.js, lines 168-186); identical to `set` with the
value/producer awaited, which the sequential execution model collapses. -/
def Handler.asyncSet (st : Handler) (heap : Heap) (pathStr : String) (value : SetVal)
    (error : Option ErrObj) (onErrorProvided : Bool) (creating : Bool) :
    Handler × Heap × Outcome :=
  if st.ok then
    let keys := pathKeys pathStr
    match (if creating ∧ keys.length > 1
           then pathGetWithCreating heap st.ctx keys.dropLast true
           else Except.ok st.ctx) with
    | Except.error s =>
      let f := st.fail error (some (Cause.thrown s)) onErrorProvided
      (f.1, heap, f.2)
    | Except.ok trg =>
      let rv := (match value with
                 | SetVal.val v => (heap, Except.ok v)
                 | SetVal.fn f => f heap trg)
      match rv.2 with
      | Except.error s =>
        let f := st.fail error (some (Cause.thrown s)) onErrorProvided
        (f.1, rv.1, f.2)
      | Except.ok val =>
        let w := (if keys.length > 1 ∧ creating
                  then jsSetProp rv.1 trg (keys.getLastD "") val
                  else pathSet rv.1 st.ctx keys val false)
        match w.2 with
        | Except.ok _ => (st, w.1, silentOutcome)
        | Except.error s =>
          let f := st.fail error (some (Cause.thrown s)) onErrorProvided
          (f.1, w.1, f.2)
  else (st, heap, silentOutcome)

/-- A side-effecting function as passed to `exec`/`asyncExec`: receives the
heap and current context, may mutate, may throw. -/
abbrev ExecFn := Heap → JSVal → Heap × Except String Unit

/-- Embeds `Handler.exec(fn, error, onError)` (src/main/core/Handler.js,
lines 195-203): no-op when `ok` is false; otherwise runs `fn` on the current
context, routing any exception through `fail`. -/
def Handler.exec (st : Handler) (heap : Heap) (fn : ExecFn)
    (error : Option ErrObj) (onErrorProvided : Bool) : Handler × Heap × Outcome :=
  if st.ok then
    let r := fn heap st.ctx
    match r.2 with
    | Except.ok _ => (st, r.1, silentOutcome)
    | Except.error s =>
      let f := st.fail error (some (Cause.thrown s)) onErrorProvided
      (f.1, r.1, f.2)
  else (st, heap, silentOutcome)

/-- Embeds `Handler.asyncExec(fn, error, onError)` (src/main/core/Handler.js,
lines 212-220); identical to `exec` with the function awaited. -/
def Handler.asyncExec (st : Handler) (heap : Heap) (fn : ExecFn)
    (error : Option ErrObj) (onErrorProvided : Bool) : Handler × Heap × Outcome :=
  if st.ok then
    let r := fn heap st.ctx
    match r.2 with
    | Except.ok _ => (st, r.1, silentOutcome)
    | Except.error s =>
      let f := st.fail error (some (Cause.thrown s)) onErrorProvided
      (f.1, r.1, f.2)
  else (st, heap, silentOutcome)

/-- State of the HTTP response collaborator (the `res` object written by
`Res.json` / `Res.redirect` of `Res.js`).  `headersSent` / `writableEnded`
are the Node.js flags the guards read; both become true once `res.end()`
has run. -/
structure ResState where
  headersSent : Bool
  writableEnded : Bool
  statusCode : Option Int
  contentType : Option String
  located : Option String
  body : Option String
deriving DecidableEq, Repr

/-- Modelled from the spec: `Notification.fromError` is referenced by
`HttpRequestHandler.defaultOnError` but its definition is not under `src/`;
spec §6 gives the wire shape `{ msg: string, payload: any, emitter?: omitted,
code: number }`.  The model keeps the fields the envelope provides. -/
structure Notification where
  msg : String
  code : Option Int
deriving DecidableEq, Repr

/-- Modelled from the spec: conversion of an enriched envelope into the
notification written on failure (with `emitter` deleted before sending, as
`defaultOnError` does). -/
def Notification.fromError (e : Envelope) : Notification :=
  { msg := e.message, code := e.code }

/-- Rendering of the notification as the JSON text passed to `res.end`,
standing in for `JSON.stringify`. -/
def Notification.stringify (n : Notification) : String :=
  "\x7b\"msg\":\"" ++ n.msg ++ "\"" ++
    (match n.code with
     | some c => ",\"code\":" ++ toString c
     | none => "") ++ "\x7d"

/-- Embeds `Res.json(res, code, obj, emitter)` (Res.js): unconditionally
sets the status code and content type and ends the response with the JSON
body — there is no `headersSent`/`writableEnded` guard in this function.
Ending the response turns both finalization flags on (Node.js semantics).
The optional `response` event emitted on the handler afterwards touches no
response state and is omitted from the model. -/
def Res_json (res : ResState) (code : Int) (body : String) : ResState :=
  { res with statusCode := some code, contentType := some "application/json",
             body := some body, headersSent := true, writableEnded := true }

/-- Embeds `Res.redirect(res, url)` (Res.js): a no-op unless neither
`headersSent` nor `writableEnded` is set; otherwise writes a 302 with the
`Location` header and ends the response. -/
def Res_redirect (res : ResState) (url : String) : ResState :=
  if !res.headersSent && !res.writableEnded then
    { res with statusCode := some 302, located := some url,
               headersSent := true, writableEnded := true }
  else res

/-- JavaScript `err.code || 400` for the status code: absent or falsy
(zero) codes fall back to 400. -/
def jsOrCode (c : Option Int) : Int :=
  match c with
  | some v => if v = 0 then 400 else v
  | none => 400

/-- Embeds `HttpRequestHandler.defaultOnError(err, handler)`
(src/main/handler/HttpRequestHandler.js, lines 36-45) as a function of the
response resolved from the context by `handler.get("res")`: when no response
is reachable (`!res`) or its headers were already sent, it returns without
writing (`none`); otherwise it writes the notification via `Res.json` with
status `err.code || 400` and returns the written response. -/
def defaultOnErrorAction (res : Option ResState) (err : Envelope) : Option ResState :=
  match res with
  | none => none
  | some r =>
    if r.headersSent then none
    else some (Res_json r (jsOrCode err.code)
      (Notification.stringify (Notification.fromError err)))

/-- The default error installed by the `HttpRequestHandler` constructor:
`{ message: "handler-fail" }`. -/
def httpDefaultError : ErrObj := { message := some "handler-fail", code := none }

/-- Embeds the `HttpRequestHandler` constructor
(src/main/handler/HttpRequestHandler.js, lines 25-31): a `Handler` over the
given root context with default error `{ message: "handler-fail" }` and
`defaultOnError` installed (so `onErrorProvided` is true for its checks). -/
def HttpRequestHandler.ofCtx (ctx : JSVal) : Handler :=
  Handler.ofCtx ctx (some httpDefaultError)

/-- Property read `v[k]` as an expression: throws on `undefined`/`null`,
reads the object on a reference, yields `undefined` on other primitives
(whose boxed objects carry none of the properties used here). -/
def jsPropAccess (heap : Heap) (v : JSVal) (k : String) : Except String JSVal :=
  match v with
  | JSVal.undef => Except.error "TypeError: cannot read properties of undefined"
  | JSVal.null => Except.error "TypeError: cannot read properties of null"
  | JSVal.ref a => Except.ok (objGet (heapGet heap a) k)
  | _ => Except.ok JSVal.undef

/-- JavaScript `String.prototype.toUpperCase` on the model's strings,
character by character (`String.toUpper` itself, unfolded to the character
list so that concrete instances evaluate). -/
def jsToUpper (s : String) : String :=
  String.mk (s.data.map Char.toUpper)

/-- Embeds the predicate of `checkMethod`
(src/main/handler/HttpRequestHandler.js, lines 115-121):
`({ req }) => methods.map(m => m.toUpperCase()).includes(req.method.toUpperCase())`.
It destructures `req` out of the context, reads `req.method`, uppercases it
(`toUpperCase` throws unless the value is a string) and tests membership.
It performs no write, which the unchanged heap reflects. -/
def checkMethodPred (methods : List String) : Pred := fun heap ctx =>
  (heap,
    match jsPropAccess heap ctx "req" with
    | Except.error s => Except.error s
    | Except.ok req =>
      match jsPropAccess heap req "method" with
      | Except.error s => Except.error s
      | Except.ok m =>
        match m with
        | JSVal.str ms => Except.ok ((methods.map (fun x => jsToUpper x)).contains (jsToUpper ms))
        | _ => Except.error "TypeError: req.method.toUpperCase is not a function")

/-- The error object `checkMethod` passes to `check`:
`{ message: 'method-check', code: 405 }`. -/
def methodCheckError : ErrObj := { message := some "method-check", code := some 405 }

/-- Embeds `HttpRequestHandler.checkMethod(...methods)`
(src/main/handler/HttpRequestHandler.js, lines 115-121): a `check` with the
method predicate, the 405 `method-check` error and `this.defaultOnError`
(installed by the constructor, hence provided). -/
def Handler.checkMethod (st : Handler) (heap : Heap) (methods : List String) :
    Handler × Heap × Outcome :=
  st.check heap (checkMethodPred methods) (some methodCheckError) true

/-- Existence of a key path in the heap: `ResolvesTo heap a ks b` states that
walking the keys `ks` from the object at address `a` passes only through
present keys whose values are object references, ending at the object at
address `b`.  This captures a path whose every intermediate segment exists
in the context. -/
inductive ResolvesTo (heap : Heap) : Nat → List String → Nat → Prop
  | nil (a : Nat) : ResolvesTo heap a [] a
  | cons (a b c : Nat) (k : String) (ks : List String)
      (hk : hasKey (heapGet heap a) k = true)
      (hv : objGet (heapGet heap a) k = JSVal.ref b)
      (rest : ResolvesTo heap b ks c) : ResolvesTo heap a (k :: ks) c

theorem strData_append (x y : String) : (x ++ y).data = x.data ++ y.data := by
  cases x; cases y; rfl

theorem strData_ne_nil {B : String} (h : B ≠ "") : B.data ≠ [] := by
  cases B with
  | mk d =>
    intro hd
    cases hd
    exact h rfl

theorem trimTrailingColon_of_last_ne {s : String} (h : lastChar s ≠ some ':') :
    trimTrailingColon s = s := by
  unfold trimTrailingColon
  cases hl : s.data.getLast? with
  | none => simp only [hl]
  | some c =>
    simp only [hl]
    rw [if_neg]
    intro hc
    exact h (by rw [lastChar, hl, hc])

theorem trimTrailingColon_concat_colon (A : String) :
    trimTrailingColon (A ++ ":") = A := by
  unfold trimTrailingColon
  have hd : (A ++ ":").data = A.data ++ [':'] := strData_append A ":"
  simp only [hd, List.getLast?_concat, List.dropLast_concat, if_true]

theorem withoutLoop_length_ge (n : Nat) :
    ∀ p : List JSVal, p.length - n ≤ (withoutLoop p n).length := by
  induction n with
  | zero => intro p; simp [withoutLoop]
  | succ n ih =>
    intro p
    unfold withoutLoop
    by_cases h : p.length > 1
    · simp only [h, if_true]
      have h2 := ih p.dropLast
      have hl : p.dropLast.length = p.length - 1 := List.length_dropLast p
      rw [hl] at h2
      exact le_trans (by omega) h2
    · simp only [h, if_false]
      exact le_trans (by omega) (ih p)

theorem withoutLoop_length_pos (n : Nat) :
    ∀ p : List JSVal, 1 ≤ p.length → 1 ≤ (withoutLoop p n).length := by
  induction n with
  | zero => intro p h; simpa [withoutLoop] using h
  | succ n ih =>
    intro p h
    unfold withoutLoop
    by_cases h1 : p.length > 1
    · simp only [h1, if_true]
      apply ih
      rw [List.length_dropLast]
      omega
    · simp only [h1, if_false]
      exact ih p h

theorem withoutLoop_concat (p : List JSVal) (v : JSVal) (h : 1 ≤ p.length) :
    withoutLoop (p ++ [v]) 1 = p := by
  have h1 : (p ++ [v]).length > 1 := by
    rw [List.length_append]
    simp
    omega
  show withoutLoop (if (p ++ [v]).length > 1 then (p ++ [v]).dropLast else p ++ [v]) 0 = p
  simp only [h1, if_true, List.dropLast_concat, withoutLoop]

/-- C5: `fail(error, cause, onError)` sets `ok` to false, builds the enriched
envelope, invokes `onError` with that envelope exactly when a callback is
provided, and emits exactly two events carrying the enriched envelope — one
keyed by the handler's default failure name (the default error's message, or
`handler-fail` when absent or empty) and one keyed by the enriched message. -/
theorem C5_fail_contract (st : Handler) (err : Option ErrObj) (cause : Option Cause) :
    ((st.fail err cause true).1.ok = false ∧ (st.fail err cause false).1.ok = false)
    ∧ (st.fail err cause true).2.onErrorCalls = [st.enrich err cause]
    ∧ (st.fail err cause false).2.onErrorCalls = []
    ∧ (st.fail err cause true).2.events
        = [(st.defaultName, st.enrich err cause),
           ((st.enrich err cause).message, st.enrich err cause)]
    ∧ (st.fail err cause false).2.events
        = [(st.defaultName, st.enrich err cause),
           ((st.enrich err cause).message, st.enrich err cause)]
    ∧ (st.defaultError = none → st.defaultName = "handler-fail")
    ∧ (∀ m, st.defaultError.bind (fun e => e.message) = some m → m ≠ "" →
        st.defaultName = m) := by
  refine ⟨⟨rfl, rfl⟩, rfl, rfl, rfl, rfl, ?_, ?_⟩
  · intro h
    simp [Handler.defaultName, h, jsOrStr]
  · intro m hm hne
    simp [Handler.defaultName, hm, jsOrStr, hne]

theorem C5_fail_contract_witness :
    ((Handler.ofCtx (JSVal.ref 0) none).fail
        (some { message := some "wrong-name", code := none }) none true).1.ok = false
    ∧ (Handler.ofCtx (JSVal.ref 0) none).defaultName = "handler-fail"
    ∧ (Handler.ofCtx (JSVal.ref 7)
        (some { message := some "default-error", code := none })).defaultName
      = "default-error" :=
  ⟨(C5_fail_contract (Handler.ofCtx (JSVal.ref 0) none)
      (some { message := some "wrong-name", code := none }) none).1.1,
   (C5_fail_contract (Handler.ofCtx (JSVal.ref 0) none)
      (some { message := some "wrong-name", code := none }) none).2.2.2.2.2.1 rfl,
   (C5_fail_contract (Handler.ofCtx (JSVal.ref 7)
      (some { message := some "default-error", code := none }))
      none none).2.2.2.2.2.2 "default-error" rfl (by decide)⟩

/-- C8: for the context `{req:{method:"GET"}}` the protocol-handler chain
`checkMethod("POST")` fails: `ok` becomes false, the envelope is the
method-mismatch `handler-fail:method-check` with code 405 (delivered to the
onError callback and emitted under both event keys), the heap — and hence
`req` — is unchanged, and the default HTTP failure observer writes nothing
since the context holds no `res`. -/
theorem C8_checkMethod_scenario :
    ((HttpRequestHandler.ofCtx (JSVal.ref 0)).checkMethod
        [[("req", JSVal.ref 1)], [("method", JSVal.str "GET")]] ["POST"]).1.ok = false
    ∧ ((HttpRequestHandler.ofCtx (JSVal.ref 0)).checkMethod
        [[("req", JSVal.ref 1)], [("method", JSVal.str "GET")]] ["POST"]).2.1
      = [[("req", JSVal.ref 1)], [("method", JSVal.str "GET")]]
    ∧ ((HttpRequestHandler.ofCtx (JSVal.ref 0)).checkMethod
        [[("req", JSVal.ref 1)], [("method", JSVal.str "GET")]] ["POST"]).2.2
      = { onErrorCalls := [{ message := "handler-fail:method-check", code := some 405,
                             cause := some (Cause.errObj (some methodCheckError)) }],
          events := [("handler-fail",
                      { message := "handler-fail:method-check", code := some 405,
                        cause := some (Cause.errObj (some methodCheckError)) }),
                     ("handler-fail:method-check",
                      { message := "handler-fail:method-check", code := some 405,
                        cause := some (Cause.errObj (some methodCheckError)) })] }
    ∧ Handler.get ((HttpRequestHandler.ofCtx (JSVal.ref 0)).checkMethod
        [[("req", JSVal.ref 1)], [("method", JSVal.str "GET")]] ["POST"]).1
        [[("req", JSVal.ref 1)], [("method", JSVal.str "GET")]] (some "res") false
      = Except.ok JSVal.undef
    ∧ defaultOnErrorAction none
        { message := "handler-fail:method-check", code := some 405,
          cause := some (Cause.errObj (some methodCheckError)) } = none :=
  ⟨rfl, rfl, rfl, rfl, rfl⟩

/-- C9: on a handler with `ok` true, a predicate that throws (or whose
promise rejects, for `asyncCheck`) never propagates the exception to the
caller: the call is routed through `fail` with the supplied error object and
the thrown value as cause, and — up to the recorded cause — the result (new
handler state, heap, event keys, envelope message and code) is exactly that
of the predicate returning false.  That `check`/`asyncCheck` cannot throw at
all is reflected in their total return type. -/
theorem C9_throwing_predicate_routed (st : Handler) (heap : Heap)
    (f : Heap → JSVal → Heap) (s : String) (err : Option ErrObj) (oep : Bool)
    (hok : st.ok = true) :
    st.check heap (fun h c => (f h c, Except.error s)) err oep
      = ((st.fail err (some (Cause.thrown s)) oep).1, f heap st.ctx,
         (st.fail err (some (Cause.thrown s)) oep).2)
    ∧ st.asyncCheck heap (fun h c => (f h c, Except.error s)) err oep
      = st.check heap (fun h c => (f h c, Except.error s)) err oep
    ∧ (st.check heap (fun h c => (f h c, Except.error s)) err oep).1
      = (st.check heap (fun h c => (f h c, Except.ok false)) err oep).1
    ∧ (st.check heap (fun h c => (f h c, Except.error s)) err oep).2.1
      = (st.check heap (fun h c => (f h c, Except.ok false)) err oep).2.1
    ∧ (st.check heap (fun h c => (f h c, Except.error s)) err oep).2.2.events.map
        (fun p => (p.1, p.2.message, p.2.code))
      = (st.check heap (fun h c => (f h c, Except.ok false)) err oep).2.2.events.map
        (fun p => (p.1, p.2.message, p.2.code))
    ∧ ∀ env ∈ (st.check heap (fun h c => (f h c, Except.error s)) err oep).2.2.onErrorCalls,
        env.cause = some (Cause.thrown s) := by
  refine ⟨?_, rfl, ?_, ?_, ?_, ?_⟩
  · simp [Handler.check, hok]
  · simp [Handler.check, hok, Handler.fail]
  · simp [Handler.check, hok]
  · simp [Handler.check, hok, Handler.fail, Handler.enrich]
  · intro env henv
    simp [Handler.check, hok, Handler.fail, Handler.enrich, Outcome.onErrorCalls] at henv
    rcases henv with ⟨h1, h2⟩
    rw [h2]

theorem C9_throwing_predicate_routed_witness :
    (Handler.ofCtx (JSVal.ref 0) none).check [[]]
        (fun h _ => (h, Except.error "boom")) none true
      = (((Handler.ofCtx (JSVal.ref 0) none).fail none
            (some (Cause.thrown "boom")) true).1, [[]],
         ((Handler.ofCtx (JSVal.ref 0) none).fail none
            (some (Cause.thrown "boom")) true).2) :=
  (C9_throwing_predicate_routed (Handler.ofCtx (JSVal.ref 0) none) [[]]
    (fun h _ => h) "boom" none true rfl).1

/-- C1 (counterexample): the claim includes `with` among the operations that
are strict no-ops after a failure, but `Handler.with` has no `ok` guard.  On
a failed handler (`ok = false`) it still navigates: over the context
`{user:{}}` it pushes the nested object onto the path stack (so the stack is
not left unchanged), and on a missing path it runs `fail` again, producing a
second failure envelope (one more `onError` call and two more events). -/
theorem C1_counterexample :
    Handler.withPath
      { path := [JSVal.ref 0], ok := false,
        defaultError := some { message := some "d", code := none } }
      [[("user", JSVal.ref 1)], []] "user" none false false
    = Except.ok ({ path := [JSVal.ref 0, JSVal.ref 1], ok := false,
                   defaultError := some { message := some "d", code := none } },
        silentOutcome)
    ∧ ([JSVal.ref 0, JSVal.ref 1] : List JSVal) ≠ [JSVal.ref 0]
    ∧ Handler.withPath
        { path := [JSVal.ref 0], ok := false,
          defaultError := some { message := some "d", code := none } }
        [[("user", JSVal.ref 1)], []] "nope" none true false
      = Except.ok ({ path := [JSVal.ref 0], ok := false,
                     defaultError := some { message := some "d", code := none } },
          { onErrorCalls := [{ message := "d:Path not found: nope", code := none,
                               cause := none }],
            events := [("d", { message := "d:Path not found: nope", code := none,
                               cause := none }),
                       ("d:Path not found: nope",
                        { message := "d:Path not found: nope", code := none,
                          cause := none })] }) :=
  ⟨rfl, by decide, rfl⟩

/-- C1 (amended): once `ok` is false, each of `check`, `asyncCheck`, `set`,
`asyncSet`, `exec` and `asyncExec` is a strict no-op — it returns the
handler and heap unchanged and produces neither `onError` calls nor events,
for every predicate/producer/function body (so no body is ever invoked);
`with` is the exception: it is not guarded and still navigates. -/
theorem C1_failed_ops_are_noops (st : Handler) (heap : Heap) (pred : Pred)
    (e : Option ErrObj) (oep : Bool) (p : String) (v : SetVal) (fn : ExecFn)
    (c : Bool) (hfail : st.ok = false) :
    st.check heap pred e oep = (st, heap, silentOutcome)
    ∧ st.asyncCheck heap pred e oep = (st, heap, silentOutcome)
    ∧ st.set heap p v e oep c = (st, heap, silentOutcome)
    ∧ st.asyncSet heap p v e oep c = (st, heap, silentOutcome)
    ∧ st.exec heap fn e oep = (st, heap, silentOutcome)
    ∧ st.asyncExec heap fn e oep = (st, heap, silentOutcome) := by
  refine ⟨?_, ?_, ?_, ?_, ?_, ?_⟩ <;>
    simp [Handler.check, Handler.asyncCheck, Handler.set, Handler.asyncSet,
      Handler.exec, Handler.asyncExec, hfail]

theorem C1_failed_ops_are_noops_witness :
    ({ path := [JSVal.ref 0], ok := false, defaultError := none } : Handler).check
      [[]] (fun h _ => (h, Except.ok false)) none true
    = ({ path := [JSVal.ref 0], ok := false, defaultError := none }, [[]],
        silentOutcome) :=
  (C1_failed_ops_are_noops
    { path := [JSVal.ref 0], ok := false, defaultError := none } [[]]
    (fun h _ => (h, Except.ok false)) none true "x" (SetVal.val JSVal.null)
    (fun h _ => (h, Except.ok ())) false rfl).1

/-- C2 (counterexample): over the context `{a:1}` with `ok` true,
`set("a", () => undefined)` does not fail at all: no "undefined result"
error exists in the code — the producer's `undefined` is assigned at the
path (`a` becomes `undefined`), `ok` stays true and nothing is emitted,
contradicting the claimed failure. -/
theorem C2_counterexample :
    Handler.set
      { path := [JSVal.ref 0], ok := true,
        defaultError := some { message := some "d", code := none } }
      [[("a", JSVal.num 1)]] "a"
      (SetVal.fn (fun h _ => (h, Except.ok JSVal.undef))) none true false
    = ({ path := [JSVal.ref 0], ok := true,
         defaultError := some { message := some "d", code := none } },
       [[("a", JSVal.undef)]], silentOutcome) := rfl

theorem resolvesTo_pathGet {heap : Heap} {a b : Nat} {ks : List String}
    (h : ResolvesTo heap a ks b) :
    pathGet heap (JSVal.ref a) ks = Except.ok (JSVal.ref b) := by
  induction h with
  | nil a => rfl
  | cons a b c k ks hk hv rest ih =>
    show pathGet heap (JSVal.ref a) (k :: ks) = _
    simp only [pathGet, hk, if_true, hv]
    exact ih

theorem resolvesTo_pathSetLoop {heap : Heap} {a b : Nat} {ks : List String}
    (h : ResolvesTo heap a ks b) (v : JSVal) (creating : Bool) (last : String) :
    ∀ done, pathSetLoop heap (JSVal.ref a) v creating done (ks ++ [last])
      = jsSetProp heap (JSVal.ref b) last v := by
  induction h with
  | nil a => intro done; rfl
  | cons a b c k ks hk hv rest ih =>
    intro done
    rw [List.cons_append]
    cases hkk : ks ++ [last] with
    | nil => exact absurd hkk (by simp)
    | cons k2 ks2 =>
      simp only [pathSetLoop, hk, if_true, hv]
      rw [← hkk]
      exact ih (done ++ [k])

/-- C2 (amended): on a handler with `ok` true, `set(path, () => undefined)`
over a path whose every segment exists in the current context treats the
producer's `undefined` like any other value: it is assigned at the path's
final key on the parent object the path resolves to, `ok` stays true and no
failure is produced — for both values of `creating`, covering both
assignment branches of `Handler.set` (the `creating` multi-key branch that
reads the parent via `Paths.get(ctx, keys.slice(0,-1), true)` and the
`Paths.set` branch); indeed the call behaves exactly as setting the literal
value `undefined`. -/
theorem C2_set_undefined_producer (st : Handler) (heap : Heap) (p : String)
    (e : Option ErrObj) (oep creating : Bool) (a b : Nat) (ks : List String)
    (last : String) (hok : st.ok = true) (hctx : st.ctx = JSVal.ref a)
    (hkeys : pathKeys p = ks ++ [last]) (hres : ResolvesTo heap a ks b) :
    st.set heap p (SetVal.fn (fun h _ => (h, Except.ok JSVal.undef))) e oep creating
      = (st, heapSet heap b (objSet (heapGet heap b) last JSVal.undef), silentOutcome)
    ∧ st.set heap p (SetVal.fn (fun h _ => (h, Except.ok JSVal.undef))) e oep creating
      = st.set heap p (SetVal.val JSVal.undef) e oep creating := by
  refine ⟨?_, rfl⟩
  have hdrop : (ks ++ [last]).dropLast = ks := List.dropLast_concat
  have hgl : (ks ++ [last]).getLastD "" = last := by
    simp [List.getLastD_concat]
  have hw : pathSet heap (JSVal.ref a) (ks ++ [last]) JSVal.undef false
      = jsSetProp heap (JSVal.ref b) last JSVal.undef := by
    unfold pathSet
    exact resolvesTo_pathSetLoop hres JSVal.undef false last []
  unfold Handler.set
  simp only [hok, if_true, hkeys, hctx]
  by_cases hcl : creating = true ∧ (ks ++ [last]).length > 1
  · simp only [hcl, if_true, and_true, hcl.1, hcl.2, if_pos, and_self]
    rw [hdrop]
    rw [show pathGetWithCreating heap (JSVal.ref a) ks true
          = pathGet heap (JSVal.ref a) ks from rfl]
    rw [resolvesTo_pathGet hres]
    simp only [if_pos (And.intro hcl.2 hcl.1), hgl]
    rfl
  · have hcl2 : ¬((ks ++ [last]).length > 1 ∧ creating = true) := by
      intro h2
      exact hcl ⟨h2.2, h2.1⟩
    simp only [hcl, if_false, hcl2]
    rw [hw]
    rfl

theorem C2_set_undefined_producer_witness :
    Handler.set
      { path := [JSVal.ref 0], ok := true, defaultError := none }
      [[("user", JSVal.ref 1)], [("name", JSVal.str "Alice")]] "user.name"
      (SetVal.fn (fun h _ => (h, Except.ok JSVal.undef))) none false true
    = ({ path := [JSVal.ref 0], ok := true, defaultError := none },
       [[("user", JSVal.ref 1)], [("name", JSVal.undef)]], silentOutcome) := by
  have h := (C2_set_undefined_producer
    { path := [JSVal.ref 0], ok := true, defaultError := none }
    [[("user", JSVal.ref 1)], [("name", JSVal.str "Alice")]] "user.name"
    none false true 0 1 ["user"] "name" rfl rfl rfl
    (ResolvesTo.cons 0 1 1 "user" [] rfl rfl (ResolvesTo.nil 1))).1
  rw [h]
  rfl

/-- C3: evaluated at the failing input — a handler over the empty object
`{}` and `with("user", undefined, undefined, creating=true)` — the call does
not create anything: because the binary `Path.get` ignores the `creating`
argument `Handler.with` passes (third conjunct: the resolver's result is
independent of `creating`), the path resolves to `undefined` and `with`
fails with the `Path not found: user` envelope, leaving the path stack at
the root, contrary to `Handler.with`'s own documentation of `creating`. -/
theorem C3_with_creating_does_not_create :
    Handler.withPath (Handler.ofCtx (JSVal.ref 0) none) [[]] "user" none false true
      = Except.ok ({ path := [JSVal.ref 0], ok := false, defaultError := none },
          { onErrorCalls := [],
            events := [("handler-fail",
                        { message := "handler-fail:Path not found: user",
                          code := none, cause := none }),
                       ("handler-fail:Path not found: user",
                        { message := "handler-fail:Path not found: user",
                          code := none, cause := none })] })
    ∧ (∀ (heap : Heap) (v : JSVal) (ks : List String),
        pathGetWithCreating heap v ks true = pathGetWithCreating heap v ks false) :=
  ⟨rfl, fun _ _ _ => rfl⟩

/-- C4 (counterexample): with default message `handler-fail` and local
message `wrong:` (ending in a colon), `enrich` produces the message
`handler-fail:wrong` — the `replace(/:$/,'')` trims the trailing colon even
though the local message is nonempty — and not the claimed
`A + ":" + B = handler-fail:wrong:`. -/
theorem C4_counterexample :
    ((Handler.ofCtx (JSVal.ref 0)
        (some { message := some "handler-fail", code := none })).enrich
      (some { message := some "wrong:", code := none }) none).message
      = "handler-fail:wrong"
    ∧ ("handler-fail:wrong" : String) ≠ "handler-fail" ++ ":" ++ "wrong:" :=
  ⟨rfl, by decide⟩

/-- C4 (amended): when the handler's default error message `A` is nonempty
(a falsy default is replaced by `handler-fail`) and the local message `B`
does not end in a colon, the enriched message is exactly `A + ":" + B`; when
`B` is empty or absent the trailing colon is trimmed and the message is
exactly `A`.  In particular `handler-fail` composed with `wrong-name` gives
`handler-fail:wrong-name`. -/
theorem C4_enrich_message_composition (st : Handler) (A : String)
    (err : Option ErrObj) (cause : Option Cause)
    (hA : st.defaultError.bind (fun x => x.message) = some A) (hAne : A ≠ "") :
    (∀ B, err.bind (fun x => x.message) = some B → B ≠ "" → lastChar B ≠ some ':' →
        (st.enrich err cause).message = A ++ ":" ++ B)
    ∧ ((err.bind (fun x => x.message) = none ∨ err.bind (fun x => x.message) = some "") →
        (st.enrich err cause).message = A) := by
  have hdn : st.defaultName = A := by simp [Handler.defaultName, hA, jsOrStr, hAne]
  constructor
  · intro B hB hBne hBlast
    have hloc : localMsg err = B := by simp [localMsg, hB]
    show trimTrailingColon (st.defaultName ++ ":" ++ localMsg err) = A ++ ":" ++ B
    rw [hdn, hloc]
    apply trimTrailingColon_of_last_ne
    have hlast : lastChar (A ++ ":" ++ B) = lastChar B := by
      unfold lastChar
      rw [strData_append (A ++ ":") B]
      exact List.getLast?_append_of_ne_nil _ (strData_ne_nil hBne)
    rw [hlast]
    exact hBlast
  · intro hB
    have hloc : localMsg err = "" := by
      rcases hB with h | h <;> simp [localMsg, h]
    show trimTrailingColon (st.defaultName ++ ":" ++ localMsg err) = A
    rw [hdn, hloc]
    have hnil : A ++ ":" ++ "" = A ++ ":" := by
      have : ∀ s : String, s ++ "" = s := by
        intro s
        cases s with
        | mk d => show String.mk (d ++ []) = String.mk d; rw [List.append_nil]
      exact this (A ++ ":")
    rw [hnil, trimTrailingColon_concat_colon]

theorem C4_enrich_message_composition_witness :
    ((Handler.ofCtx (JSVal.ref 0)
        (some { message := some "handler-fail", code := none })).enrich
      (some { message := some "wrong-name", code := none }) none).message
      = "handler-fail" ++ ":" ++ "wrong-name"
    ∧ ((Handler.ofCtx (JSVal.ref 0)
        (some { message := some "handler-fail", code := none })).enrich
      (some { message := some "", code := none }) none).message
      = "handler-fail" :=
  ⟨(C4_enrich_message_composition
      (Handler.ofCtx (JSVal.ref 0) (some { message := some "handler-fail", code := none }))
      "handler-fail" (some { message := some "wrong-name", code := none }) none
      rfl (by decide)).1 "wrong-name" rfl (by decide) (by decide),
   (C4_enrich_message_composition
      (Handler.ofCtx (JSVal.ref 0) (some { message := some "handler-fail", code := none }))
      "handler-fail" (some { message := some "", code := none }) none
      rfl (by decide)).2 (Or.inr rfl)⟩

/-- C6: for a handler whose path stack is rooted (length ≥ 1) and a path `p`
that resolves in the current context to a value distinct from the current
top and not `undefined`, `with(p)` pushes exactly that value and succeeds,
and an immediate `without()` restores the path stack, leaving the current
context reference-equal (same model value, i.e. same heap address) to what
it was before; moreover `without(n)` pops at most `n` elements and never
pops the root, so the stack length stays at least 1. -/
theorem C6_with_without_roundtrip (st : Handler) (heap : Heap) (p : String)
    (v : JSVal) (e : Option ErrObj) (oep creating : Bool)
    (hroot : 1 ≤ st.path.length)
    (hget : pathGet heap st.ctx (pathKeys p) = Except.ok v)
    (hne : v ≠ st.ctx) (hnu : v ≠ JSVal.undef) :
    st.withPath heap p e oep creating
      = Except.ok ({ st with path := st.path ++ [v] }, silentOutcome)
    ∧ (({ st with path := st.path ++ [v] } : Handler).without 1).path = st.path
    ∧ (({ st with path := st.path ++ [v] } : Handler).without 1).ctx = st.ctx
    ∧ (∀ n, st.path.length - n ≤ (st.without n).path.length)
    ∧ (∀ n, 1 ≤ (st.without n).path.length) := by
  have hpush : withoutLoop (st.path ++ [v]) 1 = st.path :=
    withoutLoop_concat st.path v hroot
  refine ⟨?_, ?_, ?_, ?_, ?_⟩
  · unfold Handler.withPath
    simp only [pathGetWithCreating]
    rw [hget]
    simp [hne, hnu]
  · show withoutLoop (st.path ++ [v]) 1 = st.path
    exact hpush
  · show (withoutLoop (st.path ++ [v]) 1).getLastD JSVal.undef
        = st.path.getLastD JSVal.undef
    rw [hpush]
  · intro n
    exact withoutLoop_length_ge n st.path
  · intro n
    exact withoutLoop_length_pos n st.path hroot

theorem C6_with_without_roundtrip_witness :
    (Handler.ofCtx (JSVal.ref 0) none).withPath [[("user", JSVal.ref 1)], []]
        "user" none false false
      = Except.ok ({ path := [JSVal.ref 0, JSVal.ref 1], ok := true,
                     defaultError := none }, silentOutcome)
    ∧ (({ path := [JSVal.ref 0, JSVal.ref 1], ok := true,
          defaultError := none } : Handler).without 1).ctx
      = (Handler.ofCtx (JSVal.ref 0) none).ctx :=
  ⟨(C6_with_without_roundtrip (Handler.ofCtx (JSVal.ref 0) none)
      [[("user", JSVal.ref 1)], []] "user" (JSVal.ref 1) none false false
      (by decide) rfl (by decide) (by decide)).1,
   (C6_with_without_roundtrip (Handler.ofCtx (JSVal.ref 0) none)
      [[("user", JSVal.ref 1)], []] "user" (JSVal.ref 1) none false false
      (by decide) rfl (by decide) (by decide)).2.2.1⟩

/-- C7 (counterexample): `Res.json` is not a no-op on a finalized response:
invoked on a response whose headers were already sent and whose stream has
ended, it still overwrites the status code, content type and body —
contradicting the claim that the response-writing helper `writeJSON` is
idempotent/no-op once the response is finalized (only `Res.redirect` and
the failure observer carry guards). -/
theorem C7_counterexample :
    Res_json { headersSent := true, writableEnded := true, statusCode := some 200,
               contentType := none, located := none, body := some "old" } 400 "new"
      ≠ { headersSent := true, writableEnded := true, statusCode := some 200,
          contentType := none, located := none, body := some "old" } := by decide

/-- C7 (amended): the exactly-once guarantee for the failure notification is
enforced upstream of `Res.json`: the default HTTP failure observer writes
nothing when no response is reachable or when its headers were already sent,
and `Res.redirect` is a no-op on a finalized response; when the headers were
not yet sent, the observer writes the status-coded notification through
`Res.json` (itself unguarded), which finalizes the response, so any further
failure's observer call writes nothing — the notification reaches the
response exactly once. -/
theorem C7_notification_written_once (r : ResState) (e e2 : Envelope) (url : String) :
    defaultOnErrorAction none e = none
    ∧ (r.headersSent = true → defaultOnErrorAction (some r) e = none)
    ∧ (r.headersSent = true ∨ r.writableEnded = true → Res_redirect r url = r)
    ∧ (r.headersSent = false →
        defaultOnErrorAction (some r) e
          = some (Res_json r (jsOrCode e.code)
              (Notification.stringify (Notification.fromError e)))
        ∧ (∀ r2, defaultOnErrorAction (some r) e = some r2 →
            defaultOnErrorAction (some r2) e2 = none)) := by
  refine ⟨rfl, ?_, ?_, ?_⟩
  · intro h
    simp [defaultOnErrorAction, h]
  · intro h
    unfold Res_redirect
    rcases h with h | h <;> simp [h]
  · intro h
    constructor
    · simp [defaultOnErrorAction, h]
    · intro r2 hr2
      simp only [defaultOnErrorAction, h, if_false, Option.some.injEq] at hr2
      rw [← hr2]
      simp [defaultOnErrorAction, Res_json]

theorem C7_notification_written_once_witness :
    defaultOnErrorAction
      (some { headersSent := false, writableEnded := false, statusCode := none,
              contentType := none, located := none, body := none })
      { message := "handler-fail:method-check", code := some 405, cause := none }
    = some (Res_json
        { headersSent := false, writableEnded := false, statusCode := none,
          contentType := none, located := none, body := none } 405
        (Notification.stringify
          { msg := "handler-fail:method-check", code := some 405 }))
    ∧ Res_redirect
        { headersSent := true, writableEnded := true, statusCode := some 200,
          contentType := none, located := none, body := none } "/login"
      = { headersSent := true, writableEnded := true, statusCode := some 200,
          contentType := none, located := none, body := none } :=
  ⟨((C7_notification_written_once
      { headersSent := false, writableEnded := false, statusCode := none,
        contentType := none, located := none, body := none }
      { message := "handler-fail:method-check", code := some 405, cause := none }
      { message := "x", code := none, cause := none } "/login").2.2.2 rfl).1,
   (C7_notification_written_once
      { headersSent := true, writableEnded := true, statusCode := some 200,
        contentType := none, located := none, body := none }
      { message := "handler-fail:method-check", code := some 405, cause := none }
      { message := "x", code := none, cause := none } "/login").2.2.1 (Or.inl rfl)⟩

/-- C10 (counterexample): `get` does not always return the resolved value or
`undefined`: over the context `{a:5}` the call `get("a.b", creating)` throws
a `TypeError` (the `in` operator is applied to the primitive `5`), which
propagates to the caller instead of yielding `undefined` for the missing
path. -/
theorem C10_counterexample :
    Handler.get { path := [JSVal.ref 0], ok := true, defaultError := none }
      [[("a", JSVal.num 5)]] (some "a.b") true
    = Except.error "TypeError: cannot use in operator on a primitive" := rfl

/-- C10 (amended): `get(path, creating)` is purely read-only — the resolver
`Path.get` takes no `creating` parameter and performs no write (its type has
no heap output), so `get`'s result is independent of the `creating` flag and
no intermediate structures are ever created; without a path it returns the
current context, a missing key or a `null`/`undefined` intermediate yields
`undefined`, while traversing a primitive non-null intermediate throws a
`TypeError` that propagates to the caller. -/
theorem C10_get_readonly_creating_ignored (st : Handler) (heap : Heap)
    (p : Option String) (c1 c2 : Bool) :
    Handler.get st heap p c1 = Handler.get st heap p c2
    ∧ (∀ (v : JSVal) (ks : List String) (creating : Bool),
        pathGetWithCreating heap v ks creating = pathGet heap v ks)
    ∧ Handler.get st heap none c1 = Except.ok st.ctx
    ∧ (∀ (a : Nat) (k : String) (ks : List String),
        hasKey (heapGet heap a) k = false →
        pathGet heap (JSVal.ref a) (k :: ks) = Except.ok JSVal.undef)
    ∧ (∀ (k : String) (ks : List String),
        pathGet heap JSVal.undef (k :: ks) = Except.ok JSVal.undef
        ∧ pathGet heap JSVal.null (k :: ks) = Except.ok JSVal.undef) := by
  refine ⟨rfl, fun _ _ _ => rfl, rfl, ?_, fun _ _ => ⟨rfl, rfl⟩⟩
  intro a k ks h
  simp [pathGet, h]

theorem C10_get_readonly_creating_ignored_witness :
    pathGet [[]] (JSVal.ref 0) ["x"] = Except.ok JSVal.undef :=
  (C10_get_readonly_creating_ignored
    { path := [JSVal.ref 0], ok := true, defaultError := none } [[]]
    none false false).2.2.2.1 0 "x" [] rfl
